import Mathlib

/-!
Verification of the edgedb-go wire-protocol codec engine
(`edgedb/protocol/codecs/codecs.go`).

The byte-cursor primitives live in the `protocol` package of the same
repository, which is not part of the provided sources; they are modelled
from the spec (§6: big-endian fixed-width integers, `[length:u32]`-prefixed
byte strings, 16-byte UUIDs, over a mutable byte buffer).  Everything else
is translated directly from `codecs.go`.

Conventions:
* a byte buffer is a `List Nat` (each element a byte value `< 256`);
* a Go function that advances a `*[]byte` cursor becomes a function
  `List Nat → Option (α × List Nat)` returning the value and the remaining
  bytes; `none` models a Go panic (slice out of range / invalid data);
* Go machine integers are `Int`/`Nat` with explicit two's-complement
  conversions (`toInt16/32/64`, `toUInt16n/32n/64n`) and wrap-around
  (`wrap32`, `wrap64`);
* Go `float32`/`float64` values are represented by their IEEE-754 bit
  patterns (`math.Float32bits`/`Float32frombits` form a bijection, so this
  representation is faithful and bit-pattern equality coincides with Go
  equality away from NaN);
* Go `time.Time` is represented by the instant it denotes, as integer
  nanoseconds since the 1970 Unix epoch; Go `time.Duration` is its integer
  nanosecond count.
-/

set_option autoImplicit false

namespace EdgedbCodecs

/-- A wire byte buffer: a list of byte values. -/
abbrev Bytes := List Nat

/-! ## Byte cursor primitives

Modelled from the spec: the `protocol` package's `PushUintN`/`PopUintN`,
`PushBytes`/`PopBytes`, `PushString`/`PopString`, `PopUUID` and
`PeekUint32` (spec §6: big-endian throughout; strings and byte strings are
`[length:u32][payload]`; a UUID is 16 raw bytes). -/

/-- Big-endian bytes of a `uint8` (the Go conversion truncates). -/
def u8be (n : Nat) : Bytes := [n % 256]

/-- Big-endian bytes of a `uint16`. -/
def u16be (n : Nat) : Bytes := [n / 256 % 256, n % 256]

/-- Big-endian bytes of a `uint32`. -/
def u32be (n : Nat) : Bytes :=
  [n / 16777216 % 256, n / 65536 % 256, n / 256 % 256, n % 256]

/-- Big-endian bytes of a `uint64`. -/
def u64be (n : Nat) : Bytes :=
  [n / 72057594037927936 % 256, n / 281474976710656 % 256,
   n / 1099511627776 % 256, n / 4294967296 % 256,
   n / 16777216 % 256, n / 65536 % 256, n / 256 % 256, n % 256]

/-- Modelled from the spec: `protocol.PushUint8`. -/
def pushUint8 (bts : Bytes) (n : Nat) : Bytes := bts ++ u8be n

/-- Modelled from the spec: `protocol.PushUint16`. -/
def pushUint16 (bts : Bytes) (n : Nat) : Bytes := bts ++ u16be n

/-- Modelled from the spec: `protocol.PushUint32`. -/
def pushUint32 (bts : Bytes) (n : Nat) : Bytes := bts ++ u32be n

/-- Modelled from the spec: `protocol.PushUint64`. -/
def pushUint64 (bts : Bytes) (n : Nat) : Bytes := bts ++ u64be n

/-- Modelled from the spec: `protocol.PopUint8`. -/
def popUint8 : Bytes → Option (Nat × Bytes)
  | [] => none
  | b :: r => some (b, r)

/-- Modelled from the spec: `protocol.PopUint16`. -/
def popUint16 : Bytes → Option (Nat × Bytes)
  | a :: b :: r => some (a * 256 + b, r)
  | _ => none

/-- Modelled from the spec: `protocol.PopUint32`. -/
def popUint32 : Bytes → Option (Nat × Bytes)
  | a :: b :: c :: d :: r =>
      some (a * 16777216 + b * 65536 + c * 256 + d, r)
  | _ => none

/-- Modelled from the spec: `protocol.PopUint64`. -/
def popUint64 : Bytes → Option (Nat × Bytes)
  | a :: b :: c :: d :: e :: f :: g :: h :: r =>
      some (a * 72057594037927936 + b * 281474976710656 + c * 1099511627776 +
            d * 4294967296 + e * 16777216 + f * 65536 + g * 256 + h, r)
  | _ => none

/-- Modelled from the spec: `protocol.PeekUint32` reads without advancing. -/
def peekUint32 (bts : Bytes) : Option Nat := (popUint32 bts).map Prod.fst

/-- Modelled from the spec: `protocol.PopBytes` pops a `u32` length and then
that many payload bytes. -/
def popBytes (bts : Bytes) : Option (Bytes × Bytes) :=
  (popUint32 bts).bind fun p =>
    if p.1 ≤ p.2.length then some (p.2.take p.1, p.2.drop p.1) else none

/-- Modelled from the spec: `protocol.PushBytes` pushes a `u32` length and
then the payload bytes. -/
def pushBytes (bts : Bytes) (b : Bytes) : Bytes := pushUint32 bts b.length ++ b

/-- Modelled from the spec: `protocol.PopString` (a Go string is its byte
sequence). -/
def popString (bts : Bytes) : Option (Bytes × Bytes) := popBytes bts

/-- Modelled from the spec: `protocol.PushString`. -/
def pushString (bts : Bytes) (s : Bytes) : Bytes := pushBytes bts s

/-- Modelled from the spec: `protocol.PopUUID` pops 16 raw bytes. -/
def popUUID (bts : Bytes) : Option (Bytes × Bytes) :=
  if 16 ≤ bts.length then some (bts.take 16, bts.drop 16) else none

/-! ## Two's-complement conversions -/

/-- Go `int16(u)` for an unsigned 16-bit `u`. -/
def toInt16 (n : Nat) : Int := if n < 32768 then (n : Int) else (n : Int) - 65536

/-- Go `int32(u)` for an unsigned 32-bit `u`. -/
def toInt32 (n : Nat) : Int :=
  if n < 2147483648 then (n : Int) else (n : Int) - 4294967296

/-- Go `int64(u)` for an unsigned 64-bit `u`. -/
def toInt64 (n : Nat) : Int :=
  if n < 9223372036854775808 then (n : Int) else (n : Int) - 18446744073709551616

/-- Go `uint16(v)` for a signed `v`. -/
def toUInt16n (v : Int) : Nat := (v % 65536).toNat

/-- Go `uint32(v)` for a signed `v`. -/
def toUInt32n (v : Int) : Nat := (v % 4294967296).toNat

/-- Go `uint64(v)` for a signed `v`. -/
def toUInt64n (v : Int) : Nat := (v % 18446744073709551616).toNat

/-- Wrap-around of `int32` arithmetic. -/
def wrap32 (v : Int) : Int := toInt32 (toUInt32n v)

/-- Wrap-around of `int64` arithmetic. -/
def wrap64 (v : Int) : Int := toInt64 (toUInt64n v)

/-! ## Scalar codecs (translated from `codecs.go`)

Each `Decode` mirrors the corresponding Go method acting on the cursor:
it first pops the 32-bit data-length word, then the payload; each `Encode`
pushes the data-length word and the payload.  `none` models a Go panic. -/

/-- Go `UUID.Decode`: pop the length word, then 16 raw bytes. -/
def uuidDecode (bts : Bytes) : Option (Bytes × Bytes) :=
  (popUint32 bts).bind fun p => popUUID p.2

/-- Go `UUID.Encode`: push length 16, then the 16 bytes of the UUID value
(a Go `types.UUID` is a `[16]byte`, so its byte list has length 16). -/
def uuidEncode (bts : Bytes) (u : Bytes) : Bytes :=
  pushUint32 bts 16 ++ u

/-- Go `String.Decode` is `protocol.PopString`. -/
def stringDecode (bts : Bytes) : Option (Bytes × Bytes) := popString bts

/-- Go `String.Encode` is `protocol.PushString`. -/
def stringEncode (bts : Bytes) (s : Bytes) : Bytes := pushString bts s

/-- Go `Bytes.Decode` is `protocol.PopBytes`. -/
def bytesDecode (bts : Bytes) : Option (Bytes × Bytes) := popBytes bts

/-- Go `Bytes.Encode` is `protocol.PushBytes`. -/
def bytesEncode (bts : Bytes) (b : Bytes) : Bytes := pushBytes bts b

/-- Go `Int16.Decode`. -/
def int16Decode (bts : Bytes) : Option (Int × Bytes) :=
  (popUint32 bts).bind fun p =>
  (popUint16 p.2).map fun q => (toInt16 q.1, q.2)

/-- Go `Int16.Encode`. -/
def int16Encode (bts : Bytes) (v : Int) : Bytes :=
  pushUint16 (pushUint32 bts 2) (toUInt16n v)

/-- Go `Int32.Decode`. -/
def int32Decode (bts : Bytes) : Option (Int × Bytes) :=
  (popUint32 bts).bind fun p =>
  (popUint32 p.2).map fun q => (toInt32 q.1, q.2)

/-- Go `Int32.Encode`. -/
def int32Encode (bts : Bytes) (v : Int) : Bytes :=
  pushUint32 (pushUint32 bts 4) (toUInt32n v)

/-- Go `Int64.Decode`. -/
def int64Decode (bts : Bytes) : Option (Int × Bytes) :=
  (popUint32 bts).bind fun p =>
  (popUint64 p.2).map fun q => (toInt64 q.1, q.2)

/-- Go `Int64.Encode`. -/
def int64Encode (bts : Bytes) (v : Int) : Bytes :=
  pushUint64 (pushUint32 bts 8) (toUInt64n v)

/-- Go `Float32.Decode`; a `float32` is represented by its IEEE-754 bit
pattern (`math.Float32frombits` is a bijection). -/
def float32Decode (bts : Bytes) : Option (Nat × Bytes) :=
  (popUint32 bts).bind fun p =>
  (popUint32 p.2).map fun q => (q.1, q.2)

/-- Go `Float32.Encode` (`math.Float32bits` of the value). -/
def float32Encode (bts : Bytes) (bits : Nat) : Bytes :=
  pushUint32 (pushUint32 bts 4) bits

/-- Go `Float64.Decode`. -/
def float64Decode (bts : Bytes) : Option (Nat × Bytes) :=
  (popUint32 bts).bind fun p =>
  (popUint64 p.2).map fun q => (q.1, q.2)

/-- Go `Float64.Encode`. -/
def float64Encode (bts : Bytes) (bits : Nat) : Bytes :=
  pushUint64 (pushUint32 bts 8) bits

/-- Go `Bool.Decode`: pop the length word then one byte; a byte other than
0 or 1 is a panic (modelled `none`). -/
def boolDecode (bts : Bytes) : Option (Bool × Bytes) :=
  (popUint32 bts).bind fun p =>
  (popUint8 p.2).bind fun q =>
  if q.1 > 1 then none else some (q.1 != 0, q.2)

/-- Go `Bool.Encode`: length 1, then byte 1 for `true` and 0 for `false`. -/
def boolEncode (bts : Bytes) (b : Bool) : Bytes :=
  pushUint8 (pushUint32 bts 1) (if b then 1 else 0)

/-- Go `DateTime.Decode`: the wire carries a signed microsecond offset from
2000-01-01T00:00:00Z; `time.Unix(946684800+seconds, 1000*microseconds)` is
the instant `(946684800 + seconds) * 1e9 + 1000 * microseconds` nanoseconds
after the Unix epoch.  Go `/` and `%` on `int64` are `Int.tdiv`/`Int.tmod`. -/
def dateTimeDecode (bts : Bytes) : Option (Int × Bytes) :=
  (popUint32 bts).bind fun p =>
  (popUint64 p.2).map fun q =>
    let val := toInt64 q.1
    ((946684800 + val.tdiv 1000000) * 1000000000 + 1000 * val.tmod 1000000, q.2)

/-- Go `DateTime.Encode`: `date.Unix()` is the floor of the instant's
nanoseconds over 1e9, and `date.Sub(time.Unix(date.Unix(), 0))` is the
nonnegative sub-second nanosecond remainder. -/
def dateTimeEncode (bts : Bytes) (t : Int) : Bytes :=
  let sec := t.fdiv 1000000000
  let nsec := t - sec * 1000000000
  let micro := (sec - 946684800) * 1000000 + nsec.tdiv 1000
  pushUint64 (pushUint32 bts 8) (toUInt64n micro)

/-- Go `Duration.Decode`: signed microseconds, two reserved words popped
and ignored; `microseconds * 1_000` is wrapping `int64` multiplication. -/
def durationDecode (bts : Bytes) : Option (Int × Bytes) :=
  (popUint32 bts).bind fun p =>
  (popUint64 p.2).bind fun q =>
  (popUint32 q.2).bind fun r1 =>
  (popUint32 r1.2).map fun r2 =>
    (wrap64 (toInt64 q.1 * 1000), r2.2)

/-- Go `Duration.Encode`: length 16, `uint64(duration/1000)` (Go truncated
division), then two zero reserved words. -/
def durationEncode (bts : Bytes) (d : Int) : Bytes :=
  pushUint32 (pushUint32 (pushUint64 (pushUint32 bts 16) (toUInt64n (d.tdiv 1000))) 0) 0

/-- Go `JSON.Decode`: pop the length `n`, skip the 1-byte format tag, hand
exactly `n-1` bytes (uint32 subtraction) to `json.Unmarshal` and advance
past them.  `encoding/json` is Go's standard library, external to this
repository, so the text codec is a parameter. -/
def jsonDecode {α : Type} (unmarshal : Bytes → Option α) (bts : Bytes) :
    Option (α × Bytes) :=
  (popUint32 bts).bind fun p =>
  (popUint8 p.2).bind fun q =>
  if (p.1 + 4294967295) % 4294967296 ≤ q.2.length then
    (unmarshal (q.2.take ((p.1 + 4294967295) % 4294967296))).map
      fun w => (w, q.2.drop ((p.1 + 4294967295) % 4294967296))
  else none

/-- Go `JSON.Encode`: length `1 + len(buf)`, the format byte 1, then the
`json.Marshal` output. -/
def jsonEncode {α : Type} (marshal : α → Bytes) (bts : Bytes) (v : α) : Bytes :=
  let buf := marshal v
  pushUint8 (pushUint32 bts (1 + buf.length)) 1 ++ buf

/-! ## Generic decoded values

Go's codecs produce and consume `interface{}` values; the dynamic types
appearing in `codecs.go` are mirrored as constructors.  `nil` is the zero
`interface{}` (a lookup of a missing map key); `list` is a plain
`[]interface{}` and `strMap` a plain `map[string]interface{}` (the only
dynamic types accepted by the encoders' type assertions); `set`, `array`,
`tuple`, `object`, `namedTuple` are the named `types.*` result types.
Map-like values are association lists in insertion order. -/

inductive Value : Type where
  | nil
  | uuid (b : Bytes)
  | str (s : Bytes)
  | bytes (b : Bytes)
  | int16 (v : Int)
  | int32 (v : Int)
  | int64 (v : Int)
  | float32 (bits : Nat)
  | float64 (bits : Nat)
  | bool (b : Bool)
  | datetime (unixNanos : Int)
  | duration (nanos : Int)
  | set (xs : List Value)
  | array (xs : List Value)
  | list (xs : List Value)
  | tuple (xs : List Value)
  | object (fs : List (Bytes × Value))
  | namedTuple (fs : List (Bytes × Value))
  | strMap (fs : List (Bytes × Value))

/-- The type of a Go `Decode` method bound to a codec. -/
abbrev ValDecoder := Bytes → Option (Value × Bytes)

/-- The type of a Go `Encode` method bound to a codec. -/
abbrev ValEncoder := Bytes → Value → Option Bytes

/-- Go type assertion `val.([]interface{})`: succeeds only on the plain
slice type (`nil` and the named `types.*` collection types fail). -/
def castList : Value → Option (List Value)
  | .list xs => some xs
  | _ => none

/-- Go type assertion `val.(map[string]interface{})`. -/
def castMap : Value → Option (List (Bytes × Value))
  | .strMap fs => some fs
  | _ => none

/-! ## Set and Array codecs (translated from `codecs.go`) -/

/-- The element loop shared by `Set.Decode` and `Array.Decode`:
`out[i] = c.child.Decode(&buf)` for `i < elmCount`. -/
def decodeN {α : Type} (child : Bytes → Option (α × Bytes)) :
    Nat → Bytes → Option (List α × Bytes)
  | 0, bts => some ([], bts)
  | k + 1, bts =>
    (child bts).bind fun p =>
    (decodeN child k p.2).map fun q => (p.1 :: q.1, q.2)

/-- Go `Set.Decode`: pop the value envelope, read the dimension count
(empty set when 0), skip two reserved words, read signed upper and lower
bounds, and decode `int(upper - lower + 1)` children (int32 arithmetic;
a negative count makes `make` panic, modelled `none`).  Any bytes of the
envelope left after the children are discarded with the envelope. -/
def setDecodeL {α : Type} (child : Bytes → Option (α × Bytes)) (bts : Bytes) :
    Option (List α × Bytes) :=
  (popBytes bts).bind fun pbuf =>
  (popUint32 pbuf.1).bind fun pdim =>
  if pdim.1 = 0 then some ([], pbuf.2)
  else
    (popUint32 pdim.2).bind fun pr1 =>
    (popUint32 pr1.2).bind fun pr2 =>
    (popUint32 pr2.2).bind fun pu =>
    (popUint32 pu.2).bind fun pl =>
    if wrap32 (toInt32 pu.1 - toInt32 pl.1 + 1) < 0 then none
    else
      (decodeN child (wrap32 (toInt32 pu.1 - toInt32 pl.1 + 1)).toNat
          pl.2).map fun q => (q.1, pbuf.2)

/-- Go `Array.Decode`: byte-for-byte the same algorithm as `Set.Decode`
(the source duplicates it), returning a `types.Array` instead. -/
def arrayDecodeL {α : Type} (child : Bytes → Option (α × Bytes)) (bts : Bytes) :
    Option (List α × Bytes) :=
  (popBytes bts).bind fun pbuf =>
  (popUint32 pbuf.1).bind fun pdim =>
  if pdim.1 = 0 then some ([], pbuf.2)
  else
    (popUint32 pdim.2).bind fun pr1 =>
    (popUint32 pr1.2).bind fun pr2 =>
    (popUint32 pr2.2).bind fun pu =>
    (popUint32 pu.2).bind fun pl =>
    if wrap32 (toInt32 pu.1 - toInt32 pl.1 + 1) < 0 then none
    else
      (decodeN child (wrap32 (toInt32 pu.1 - toInt32 pl.1 + 1)).toNat
          pl.2).map fun q => (q.1, pbuf.2)

/-- Go `Set.Decode` wrapped into the generic value (`types.Set`). -/
def setDecode (child : ValDecoder) (bts : Bytes) : Option (Value × Bytes) :=
  (setDecodeL child bts).map fun p => (Value.set p.1, p.2)

/-- Go `Array.Decode` wrapped into the generic value (`types.Array`). -/
def arrayDecode (child : ValDecoder) (bts : Bytes) : Option (Value × Bytes) :=
  (arrayDecodeL child bts).map fun p => (Value.array p.1, p.2)

/-- Go `Set.Encode` panics (`not implemented`). -/
def setEncode : ValEncoder := fun _ _ => none

/-- The per-element body of Go `Array.Encode` (no reserved word between
elements). -/
def encodeArrayElems (child : ValEncoder) : Bytes → List Value → Option Bytes
  | tmp, [] => some tmp
  | tmp, x :: xs => (child tmp x).bind fun tmp2 => encodeArrayElems child tmp2 xs

/-- Go `Array.Encode`: cast the argument to `[]interface{}`, build the
payload in a fresh buffer — dimension count 1, two zero reserved words,
the fixed bounds upper=3 and lower=1 — encode every input element, then
push the payload length and the payload. -/
def arrayEncode (child : ValEncoder) (bts : Bytes) (val : Value) : Option Bytes :=
  (castList val).bind fun xs =>
  (encodeArrayElems child
      (pushUint32 (pushUint32 (pushUint32 (pushUint32 (pushUint32 [] 1) 0) 0) 3) 1)
      xs).map fun tmp =>
    pushUint32 bts tmp.length ++ tmp

/-! ## Object codec (translated from `codecs.go`) -/

/-- A field of the `Object` codec (`objectField` in the source). -/
structure ObjField where
  isImplicit : Bool
  isLinkProperty : Bool
  isLink : Bool
  name : Bytes
  codec : ValDecoder

/-- The per-field loop of Go `Object.Decode`: skip a reserved word, peek
the next length; `-1` marks a missing field (consume the 4 sentinel bytes
and record `types.Set{}`), otherwise decode with the field codec.  Running
out of declared fields is the Go `fields[i]` panic. -/
def objLoop : Nat → List ObjField → Bytes → Option (List (Bytes × Value) × Bytes)
  | 0, _, buf => some ([], buf)
  | _ + 1, [], _ => none
  | k + 1, f :: fs, buf =>
    (popUint32 buf).bind fun pr =>
    (peekUint32 pr.2).bind fun pk =>
    if toInt32 pk = -1 then
      (popUint32 pr.2).bind fun ps =>
      (objLoop k fs ps.2).map fun q => ((f.name, Value.set []) :: q.1, q.2)
    else
      (f.codec pr.2).bind fun pv =>
      (objLoop k fs pv.2).map fun q => ((f.name, pv.1) :: q.1, q.2)

/-- Go `Object.Decode`: pop the envelope, read `int(int32(elmCount))`
(non-positive counts run the loop zero times), process that many fields
in declared order, discard envelope leftovers. -/
def objectDecode (fields : List ObjField) (bts : Bytes) :
    Option (List (Bytes × Value) × Bytes) :=
  (popBytes bts).bind fun pbuf =>
  (popUint32 pbuf.1).bind fun pc =>
  (objLoop (toInt32 pc.1).toNat fields pc.2).map fun q => (q.1, pbuf.2)

/-- Go `Object.Encode` panics (`objects can't be query parameters`). -/
def objectEncode : ValEncoder := fun _ _ => none

/-! ## Tuple and NamedTuple codecs (translated from `codecs.go`) -/

/-- The per-element loop of Go `Tuple.Decode`. -/
def tupleDecodeLoop : Nat → List ValDecoder → Bytes → Option (List Value × Bytes)
  | 0, _, buf => some ([], buf)
  | _ + 1, [], _ => none
  | k + 1, f :: fs, buf =>
    (popUint32 buf).bind fun pr =>
    (f pr.2).bind fun pv =>
    (tupleDecodeLoop k fs pv.2).map fun q => (pv.1 :: q.1, q.2)

/-- Go `Tuple.Decode`. -/
def tupleDecode (fields : List ValDecoder) (bts : Bytes) :
    Option (Value × Bytes) :=
  (popBytes bts).bind fun pbuf =>
  (popUint32 pbuf.1).bind fun pc =>
  (tupleDecodeLoop (toInt32 pc.1).toNat fields pc.2).map fun q =>
    (Value.tuple q.1, pbuf.2)

/-- The per-element loop of Go `Tuple.Encode` and `NamedTuple.Encode`
for positional input: push a reserved word, then the element.  Running out
of input elements is the Go `in[i]` panic. -/
def encodeSeq : List ValEncoder → Bytes → List Value → Option Bytes
  | [], tmp, _ => some tmp
  | _ :: _, _, [] => none
  | f :: fs, tmp, x :: xs =>
    (f (pushUint32 tmp 0) x).bind fun tmp2 => encodeSeq fs tmp2 xs

/-- Go `Tuple.Encode`: the zero-arity tuple is special-cased to emit
exactly `[length=4][elementCount=0]` before the argument is even cast;
otherwise cast to `[]interface{}`, build element count, reserved words and
elements in a fresh buffer, then push its length and contents. -/
def tupleEncode (fields : List ValEncoder) (bts : Bytes) (val : Value) :
    Option Bytes :=
  if fields.length = 0 then some (pushUint32 (pushUint32 bts 4) 0)
  else
    (castList val).bind fun xs =>
    (encodeSeq fields (pushUint32 [] fields.length) xs).map fun tmp =>
      pushUint32 bts tmp.length ++ tmp

/-- The per-element loop of Go `NamedTuple.Decode`. -/
def namedTupleDecodeLoop :
    Nat → List (Bytes × ValDecoder) → Bytes →
      Option (List (Bytes × Value) × Bytes)
  | 0, _, buf => some ([], buf)
  | _ + 1, [], _ => none
  | k + 1, f :: fs, buf =>
    (popUint32 buf).bind fun pr =>
    (f.2 pr.2).bind fun pv =>
    (namedTupleDecodeLoop k fs pv.2).map fun q =>
      ((f.1, pv.1) :: q.1, q.2)

/-- Go `NamedTuple.Decode`. -/
def namedTupleDecode (fields : List (Bytes × ValDecoder)) (bts : Bytes) :
    Option (Value × Bytes) :=
  (popBytes bts).bind fun pbuf =>
  (popUint32 pbuf.1).bind fun pc =>
  (namedTupleDecodeLoop (toInt32 pc.1).toNat fields pc.2).map fun q =>
    (Value.namedTuple q.1, pbuf.2)

/-- The per-field loop of Go `NamedTuple.Encode`: push a reserved word,
then encode `in[field.name]` — a missing key yields Go's `nil`, which is
handed to the field codec unchecked. -/
def encodeNamedFields :
    List (Bytes × ValEncoder) → Bytes → List (Bytes × Value) → Option Bytes
  | [], tmp, _ => some tmp
  | f :: fs, tmp, m =>
    (f.2 (pushUint32 tmp 0) ((List.lookup f.1 m).getD Value.nil)).bind
      fun tmp2 => encodeNamedFields fs tmp2 m

/-- Go `NamedTuple.Encode`: cast to `map[string]interface{}`, build element
count, reserved words and name-looked-up fields in a fresh buffer, then
push its length and contents. -/
def namedTupleEncode (fields : List (Bytes × ValEncoder)) (bts : Bytes)
    (val : Value) : Option Bytes :=
  (castMap val).bind fun m =>
  (encodeNamedFields fields (pushUint32 [] fields.length) m).map fun tmp =>
    pushUint32 bts tmp.length ++ tmp

/-! ## Value-level scalar encoders and decoders

Each Go scalar `Encode` begins with a type assertion on its `interface{}`
argument; an argument of any other dynamic type (in particular `nil`)
panics. -/

/-- Go `UUID.Encode` with its `val.(types.UUID)` assertion. -/
def uuidEncodeV : ValEncoder := fun bts v =>
  match v with
  | .uuid u => some (uuidEncode bts u)
  | _ => none

/-- Go `String.Encode` with its `val.(string)` assertion. -/
def stringEncodeV : ValEncoder := fun bts v =>
  match v with
  | .str s => some (stringEncode bts s)
  | _ => none

/-- Go `Bytes.Encode` with its `val.([]byte)` assertion. -/
def bytesEncodeV : ValEncoder := fun bts v =>
  match v with
  | .bytes b => some (bytesEncode bts b)
  | _ => none

/-- Go `Int16.Encode` with its `val.(int16)` assertion. -/
def int16EncodeV : ValEncoder := fun bts v =>
  match v with
  | .int16 n => some (int16Encode bts n)
  | _ => none

/-- Go `Int32.Encode` with its `val.(int32)` assertion. -/
def int32EncodeV : ValEncoder := fun bts v =>
  match v with
  | .int32 n => some (int32Encode bts n)
  | _ => none

/-- Go `Int64.Encode` with its `val.(int64)` assertion. -/
def int64EncodeV : ValEncoder := fun bts v =>
  match v with
  | .int64 n => some (int64Encode bts n)
  | _ => none

/-- Go `Float32.Encode` with its `val.(float32)` assertion. -/
def float32EncodeV : ValEncoder := fun bts v =>
  match v with
  | .float32 bits => some (float32Encode bts bits)
  | _ => none

/-- Go `Float64.Encode` with its `val.(float64)` assertion. -/
def float64EncodeV : ValEncoder := fun bts v =>
  match v with
  | .float64 bits => some (float64Encode bts bits)
  | _ => none

/-- Go `Bool.Encode` with its `val.(bool)` assertion. -/
def boolEncodeV : ValEncoder := fun bts v =>
  match v with
  | .bool b => some (boolEncode bts b)
  | _ => none

/-- Go `DateTime.Encode` with its `val.(time.Time)` assertion. -/
def dateTimeEncodeV : ValEncoder := fun bts v =>
  match v with
  | .datetime t => some (dateTimeEncode bts t)
  | _ => none

/-- Go `Duration.Encode` with its `val.(time.Duration)` assertion. -/
def durationEncodeV : ValEncoder := fun bts v =>
  match v with
  | .duration d => some (durationEncode bts d)
  | _ => none

/-- Go `Int32.Decode` wrapped into the generic value (used as a concrete
child codec in witnesses). -/
def int32DecodeV : ValDecoder := fun bts =>
  (int32Decode bts).map fun p => (Value.int32 p.1, p.2)

/-! ## Stand-ins for the external JSON text codec (used by witnesses) -/

/-- A concrete stand-in for `json.Marshal` restricted to booleans, used only
to witness the JSON conjunct: `true`/`false` as their UTF-8 JSON texts. -/
def boolMarshal (b : Bool) : Bytes :=
  if b then [116, 114, 117, 101] else [102, 97, 108, 115, 101]

/-- The matching stand-in for `json.Unmarshal` on booleans. -/
def boolUnmarshal (s : Bytes) : Option Bool :=
  if s = [116, 114, 117, 101] then some true
  else if s = [102, 97, 108, 115, 101] then some false
  else none

/-! ## The field/segment relation used to state Object decoding -/

/-- How one field of an Object relates to its wire segment
`(reserved word, chunk, expected value)`: either the chunk is the 4-byte
`-1` sentinel and the expectation is the empty-set placeholder, or the
chunk does not peek as `-1` and the field codec decodes exactly it. -/
def Rfield (f : ObjField) (s : Nat × Bytes × Value) : Prop :=
  (s.2.1 = [255, 255, 255, 255] ∧ s.2.2 = Value.set []) ∨
  ((∃ pk, peekUint32 s.2.1 = some pk ∧ ¬ toInt32 pk = -1) ∧
    ∀ t : Bytes, f.codec (s.2.1 ++ t) = some (s.2.2, t))

/-- The encoded bytes of one int32 element, used by the C6 witness. -/
def int32enc (v : Value) : Bytes :=
  match v with
  | .int32 n => int32Encode [] n
  | _ => []

/-! ## Descriptor stream parser (translated from `codecs.go`)

The registry builder `Pop`.  Codecs in the registry are represented as a
tree (the format is acyclic: a descriptor only references earlier ones).
All Go panics during parsing become `Except.error`: an error aborts the
build and no partially-built registry is returned. -/

/-- A built codec, mirroring the concrete `DecodeEncoder` implementations
of the source; an object field carries the three flag bits (implicit,
link-property, link), its name and its codec. -/
inductive Codec : Type where
  | uuid
  | str
  | bytes
  | int16
  | int32
  | int64
  | float32
  | float64
  | bool
  | datetime
  | duration
  | json
  | set (child : Codec)
  | object (fields : List (Bool × Bool × Bool × Bytes × Codec))
  | tuple (fields : List Codec)
  | namedTuple (fields : List (Bytes × Codec))
  | array (child : Codec)

/-- How registry construction fails (each variant is a Go panic in the
source).  `outOfFuel` cannot occur for `Pop` itself, whose fuel is the
buffer length while every iteration consumes at least the tag byte. -/
inductive PopError : Type where
  | truncated
  | unknownTag (tag : Nat) (rest : Bytes)
  | badIndex (index : Nat)
  | unknownScalar (id : Bytes)
  | notImplementedScalar (id : Bytes)
  | outOfFuel

/-- Go `CodecLookup`, a map from type id to codec, as an association list. -/
abbrev CodecLookup := List (Bytes × Codec)

/-- Go map assignment `lookup[id] = c`. -/
def lookupInsert (l : CodecLookup) (id : Bytes) (c : Codec) : CodecLookup :=
  match l with
  | [] => [(id, c)]
  | p :: rest =>
      if p.1 = id then (id, c) :: rest else p :: lookupInsert rest id c

/-- The base-scalar type id `{0,...,0,1,k}` of the source's switch. -/
def scalarBaseId (k : Nat) : Bytes :=
  [0, 0, 0, 0, 0, 0, 0, 0, 0, 0, 0, 0, 0, 0, 1, k]

/-- Go `getBaseScalarCodec`: a fixed id table; the decimal, local-datetime,
local-date, local-time and bigint ids panic `not implemented`, every other
unknown id panics `unknown base scalar type descriptor id`. -/
def getBaseScalarCodec (id : Bytes) : Except PopError Codec :=
  if id = scalarBaseId 0 then .ok .uuid
  else if id = scalarBaseId 1 then .ok .str
  else if id = scalarBaseId 2 then .ok .bytes
  else if id = scalarBaseId 3 then .ok .int16
  else if id = scalarBaseId 4 then .ok .int32
  else if id = scalarBaseId 5 then .ok .int64
  else if id = scalarBaseId 6 then .ok .float32
  else if id = scalarBaseId 7 then .ok .float64
  else if id = scalarBaseId 8 then .error (.notImplementedScalar id)
  else if id = scalarBaseId 9 then .ok .bool
  else if id = scalarBaseId 10 then .ok .datetime
  else if id = scalarBaseId 11 then .error (.notImplementedScalar id)
  else if id = scalarBaseId 12 then .error (.notImplementedScalar id)
  else if id = scalarBaseId 13 then .error (.notImplementedScalar id)
  else if id = scalarBaseId 14 then .ok .duration
  else if id = scalarBaseId 15 then .ok .json
  else if id = scalarBaseId 16 then .error (.notImplementedScalar id)
  else .error (.unknownScalar id)

/-- Go `popSetCodec`: pop the 16-bit child index and look it up among the
codecs parsed so far; `codecs[n]` out of range is a panic (`badIndex`). -/
def popSetCodecD (bts : Bytes) (codecs : List Codec) :
    Except PopError (Codec × Bytes) :=
  match popUint16 bts with
  | none => .error .truncated
  | some (n, r) =>
    match codecs[n]? with
    | some c => .ok (.set c, r)
    | none => .error (.badIndex n)

/-- The field loop of Go `popObjectCodec`: per field a flag byte, a
length-prefixed name, and a 16-bit codec index resolved immediately. -/
def popObjFieldsD : Nat → Bytes → List Codec →
    Except PopError (List (Bool × Bool × Bool × Bytes × Codec) × Bytes)
  | 0, bts, _ => .ok ([], bts)
  | k + 1, bts, codecs =>
    match popUint8 bts with
    | none => .error .truncated
    | some (flags, r1) =>
      match popString r1 with
      | none => .error .truncated
      | some (nm, r2) =>
        match popUint16 r2 with
        | none => .error .truncated
        | some (idx, r3) =>
          match codecs[idx]? with
          | none => .error (.badIndex idx)
          | some c =>
            match popObjFieldsD k r3 codecs with
            | .error e => .error e
            | .ok (fs, r4) =>
                .ok ((flags &&& 1 != 0, flags &&& 2 != 0, flags &&& 4 != 0,
                  nm, c) :: fs, r4)

/-- Go `popObjectCodec`. -/
def popObjectCodecD (bts : Bytes) (codecs : List Codec) :
    Except PopError (Codec × Bytes) :=
  match popUint16 bts with
  | none => .error .truncated
  | some (cnt, r) =>
    match popObjFieldsD cnt r codecs with
    | .error e => .error e
    | .ok (fs, r2) => .ok (.object fs, r2)

/-- The index loop of Go `popTupleCodec`. -/
def popTupleIdxsD : Nat → Bytes → List Codec →
    Except PopError (List Codec × Bytes)
  | 0, bts, _ => .ok ([], bts)
  | k + 1, bts, codecs =>
    match popUint16 bts with
    | none => .error .truncated
    | some (idx, r) =>
      match codecs[idx]? with
      | none => .error (.badIndex idx)
      | some c =>
        match popTupleIdxsD k r codecs with
        | .error e => .error e
        | .ok (fs, r2) => .ok (c :: fs, r2)

/-- Go `popTupleCodec`. -/
def popTupleCodecD (bts : Bytes) (codecs : List Codec) :
    Except PopError (Codec × Bytes) :=
  match popUint16 bts with
  | none => .error .truncated
  | some (cnt, r) =>
    match popTupleIdxsD cnt r codecs with
    | .error e => .error e
    | .ok (fs, r2) => .ok (.tuple fs, r2)

/-- The field loop of Go `popNamedTupleCodec`. -/
def popNamedFieldsD : Nat → Bytes → List Codec →
    Except PopError (List (Bytes × Codec) × Bytes)
  | 0, bts, _ => .ok ([], bts)
  | k + 1, bts, codecs =>
    match popString bts with
    | none => .error .truncated
    | some (nm, r1) =>
      match popUint16 r1 with
      | none => .error .truncated
      | some (idx, r2) =>
        match codecs[idx]? with
        | none => .error (.badIndex idx)
        | some c =>
          match popNamedFieldsD k r2 codecs with
          | .error e => .error e
          | .ok (fs, r3) => .ok ((nm, c) :: fs, r3)

/-- Go `popNamedTupleCodec`. -/
def popNamedTupleCodecD (bts : Bytes) (codecs : List Codec) :
    Except PopError (Codec × Bytes) :=
  match popUint16 bts with
  | none => .error .truncated
  | some (cnt, r) =>
    match popNamedFieldsD cnt r codecs with
    | .error e => .error e
    | .ok (fs, r2) => .ok (.namedTuple fs, r2)

/-- The dimension loop of Go `popArrayCodec` (dimension words are popped
and discarded). -/
def popDimsD : Nat → Bytes → Option Bytes
  | 0, bts => some bts
  | k + 1, bts => (popUint32 bts).bind fun p => popDimsD k p.2

/-- Go `popArrayCodec`: the child index is popped first, the dimension
words are consumed, and `codecs[index]` is resolved at the end. -/
def popArrayCodecD (bts : Bytes) (codecs : List Codec) :
    Except PopError (Codec × Bytes) :=
  match popUint16 bts with
  | none => .error .truncated
  | some (idx, r1) =>
    match popUint16 r1 with
    | none => .error .truncated
    | some (ndims, r2) =>
      match popDimsD ndims r2 with
      | none => .error .truncated
      | some r3 =>
        match codecs[idx]? with
        | none => .error (.badIndex idx)
        | some c => .ok (.array c, r3)

/-- The loop of Go `Pop`: while bytes remain, pop a tag byte and a 16-byte
id, dispatch on the tag (0 set, 1 object, 2 base scalar, 4 tuple, 5 named
tuple, 6 array; anything else — including the reserved scalar-alias tag 3
and enum tag 7 — panics `unknown descriptor type` carrying the tag and the
remaining bytes), then record the codec in the lookup and append it to the
codec list.  Recursion is by fuel; `Pop` supplies the buffer length, which
suffices since every iteration consumes at least 17 bytes. -/
def popLoop : Nat → CodecLookup → List Codec → Bytes →
    Except PopError CodecLookup
  | _, lookup, _, [] => .ok lookup
  | 0, _, _, _ :: _ => .error .outOfFuel
  | fuel + 1, lookup, codecs, b :: tl =>
    match popUUID tl with
    | none => .error .truncated
    | some (id, r1) =>
      match b with
      | 0 =>
        match popSetCodecD r1 codecs with
        | .error e => .error e
        | .ok (c, r2) =>
            popLoop fuel (lookupInsert lookup id c) (codecs ++ [c]) r2
      | 1 =>
        match popObjectCodecD r1 codecs with
        | .error e => .error e
        | .ok (c, r2) =>
            popLoop fuel (lookupInsert lookup id c) (codecs ++ [c]) r2
      | 2 =>
        match getBaseScalarCodec id with
        | .error e => .error e
        | .ok c => popLoop fuel (lookupInsert lookup id c) (codecs ++ [c]) r1
      | 4 =>
        match popTupleCodecD r1 codecs with
        | .error e => .error e
        | .ok (c, r2) =>
            popLoop fuel (lookupInsert lookup id c) (codecs ++ [c]) r2
      | 5 =>
        match popNamedTupleCodecD r1 codecs with
        | .error e => .error e
        | .ok (c, r2) =>
            popLoop fuel (lookupInsert lookup id c) (codecs ++ [c]) r2
      | 6 =>
        match popArrayCodecD r1 codecs with
        | .error e => .error e
        | .ok (c, r2) =>
            popLoop fuel (lookupInsert lookup id c) (codecs ++ [c]) r2
      | tag => .error (.unknownTag tag r1)

/-- Go `Pop`: build the registry from a full descriptor stream. -/
def Pop (bts : Bytes) : Except PopError CodecLookup :=
  popLoop bts.length [] [] bts

/-! ## Cursor lemmas -/

@[simp] theorem pushUint8_eq (bts : Bytes) (n : Nat) :
    pushUint8 bts n = bts ++ u8be n := rfl

@[simp] theorem pushUint16_eq (bts : Bytes) (n : Nat) :
    pushUint16 bts n = bts ++ u16be n := rfl

@[simp] theorem pushUint32_eq (bts : Bytes) (n : Nat) :
    pushUint32 bts n = bts ++ u32be n := rfl

@[simp] theorem pushUint64_eq (bts : Bytes) (n : Nat) :
    pushUint64 bts n = bts ++ u64be n := rfl

@[simp] theorem popUint8_cons (b : Nat) (r : Bytes) :
    popUint8 (b :: r) = some (b, r) := rfl

@[simp] theorem popUint16_u16be (n : Nat) (r : Bytes) :
    popUint16 (u16be n ++ r) = some (n % 65536, r) := by
  have hv : n / 256 % 256 * 256 + n % 256 = n % 65536 := by omega
  simp [u16be, popUint16, hv]

@[simp] theorem popUint32_u32be (n : Nat) (r : Bytes) :
    popUint32 (u32be n ++ r) = some (n % 4294967296, r) := by
  have hv : n / 16777216 % 256 * 16777216 + n / 65536 % 256 * 65536 +
      n / 256 % 256 * 256 + n % 256 = n % 4294967296 := by omega
  simp [u32be, popUint32, hv]

@[simp] theorem popUint64_u64be (n : Nat) (r : Bytes) :
    popUint64 (u64be n ++ r) = some (n % 18446744073709551616, r) := by
  have hv : n / 72057594037927936 % 256 * 72057594037927936 +
      n / 281474976710656 % 256 * 281474976710656 +
      n / 1099511627776 % 256 * 1099511627776 +
      n / 4294967296 % 256 * 4294967296 +
      n / 16777216 % 256 * 16777216 + n / 65536 % 256 * 65536 +
      n / 256 % 256 * 256 + n % 256 = n % 18446744073709551616 := by omega
  simp [u64be, popUint64, hv]

@[simp] theorem u8be_length (n : Nat) : (u8be n).length = 1 := rfl

@[simp] theorem u16be_length (n : Nat) : (u16be n).length = 2 := rfl

@[simp] theorem u32be_length (n : Nat) : (u32be n).length = 4 := rfl

@[simp] theorem u64be_length (n : Nat) : (u64be n).length = 8 := rfl

theorem popBytes_pushBytes (b r : Bytes) (h : b.length < 4294967296) :
    popBytes (pushBytes [] b ++ r) = some (b, r) := by
  have hm : b.length % 4294967296 = b.length := Nat.mod_eq_of_lt h
  simp [pushBytes, popBytes, List.append_assoc, hm, Nat.le_add_right,
    List.take_left, List.drop_left]

theorem popUUID_append (u r : Bytes) (h : u.length = 16) :
    popUUID (u ++ r) = some (u, r) := by
  unfold popUUID
  rw [if_pos (by simp [h]), ← h, List.take_left, List.drop_left]

theorem peekUint32_append (b t : Bytes) (pk : Nat) (h : peekUint32 b = some pk) :
    peekUint32 (b ++ t) = some pk := by
  match b with
  | a :: b' :: c :: d :: r =>
      simpa [peekUint32, popUint32] using h
  | [] => simp [peekUint32, popUint32] at h
  | [a] => simp [peekUint32, popUint32] at h
  | [a, b'] => simp [peekUint32, popUint32] at h
  | [a, b', c] => simp [peekUint32, popUint32] at h

/-! ## Signed conversion lemmas -/

theorem toUInt16n_lt (v : Int) : toUInt16n v < 65536 := by
  unfold toUInt16n; omega

theorem toUInt32n_lt (v : Int) : toUInt32n v < 4294967296 := by
  unfold toUInt32n; omega

theorem toUInt64n_lt (v : Int) : toUInt64n v < 18446744073709551616 := by
  unfold toUInt64n; omega

theorem toInt16_toUInt16n (v : Int) (h1 : -32768 ≤ v) (h2 : v < 32768) :
    toInt16 (toUInt16n v) = v := by
  unfold toInt16 toUInt16n
  split <;> omega

theorem toInt32_toUInt32n (v : Int) (h1 : -2147483648 ≤ v) (h2 : v < 2147483648) :
    toInt32 (toUInt32n v) = v := by
  unfold toInt32 toUInt32n
  split <;> omega

theorem toInt64_toUInt64n (v : Int)
    (h1 : -9223372036854775808 ≤ v) (h2 : v < 9223372036854775808) :
    toInt64 (toUInt64n v) = v := by
  unfold toInt64 toUInt64n
  split <;> omega

theorem wrap32_eq_self (v : Int) (h1 : -2147483648 ≤ v) (h2 : v < 2147483648) :
    wrap32 v = v := toInt32_toUInt32n v h1 h2

theorem wrap64_eq_self (v : Int)
    (h1 : -9223372036854775808 ≤ v) (h2 : v < 9223372036854775808) :
    wrap64 v = v := toInt64_toUInt64n v h1 h2

/-! ## Scalar round-trip lemmas

Each lemma is stated in exact-consumption form: decoding the encoding of
`v` followed by any `rest` yields `v` and leaves exactly `rest`. -/

theorem popUUID_exact (u : Bytes) (h : u.length = 16) :
    popUUID u = some (u, []) := by
  unfold popUUID
  rw [if_pos (by omega), ← h, List.take_length, List.drop_length]

theorem uuid_roundtrip (u rest : Bytes) (h : u.length = 16) :
    uuidDecode (uuidEncode [] u ++ rest) = some (u, rest) := by
  simp [uuidDecode, uuidEncode, List.append_assoc, popUUID_append u rest h]

theorem string_roundtrip (s rest : Bytes) (h : s.length < 4294967296) :
    stringDecode (stringEncode [] s ++ rest) = some (s, rest) := by
  simpa [stringDecode, stringEncode, popString, pushString] using
    popBytes_pushBytes s rest h

theorem bytes_roundtrip (b rest : Bytes) (h : b.length < 4294967296) :
    bytesDecode (bytesEncode [] b ++ rest) = some (b, rest) := by
  simpa [bytesDecode, bytesEncode] using popBytes_pushBytes b rest h

theorem int16_roundtrip (v : Int) (rest : Bytes)
    (h1 : -32768 ≤ v) (h2 : v < 32768) :
    int16Decode (int16Encode [] v ++ rest) = some (v, rest) := by
  have hmod : toUInt16n v % 65536 = toUInt16n v := Nat.mod_eq_of_lt (toUInt16n_lt v)
  simp [int16Decode, int16Encode, List.append_assoc, hmod,
    toInt16_toUInt16n v h1 h2]

theorem int32_roundtrip (v : Int) (rest : Bytes)
    (h1 : -2147483648 ≤ v) (h2 : v < 2147483648) :
    int32Decode (int32Encode [] v ++ rest) = some (v, rest) := by
  have hmod : toUInt32n v % 4294967296 = toUInt32n v :=
    Nat.mod_eq_of_lt (toUInt32n_lt v)
  simp [int32Decode, int32Encode, List.append_assoc, hmod,
    toInt32_toUInt32n v h1 h2]

theorem int64_roundtrip (v : Int) (rest : Bytes)
    (h1 : -9223372036854775808 ≤ v) (h2 : v < 9223372036854775808) :
    int64Decode (int64Encode [] v ++ rest) = some (v, rest) := by
  have hmod : toUInt64n v % 18446744073709551616 = toUInt64n v :=
    Nat.mod_eq_of_lt (toUInt64n_lt v)
  simp [int64Decode, int64Encode, List.append_assoc, hmod,
    toInt64_toUInt64n v h1 h2]

theorem float32_roundtrip (bits : Nat) (rest : Bytes) (h : bits < 4294967296) :
    float32Decode (float32Encode [] bits ++ rest) = some (bits, rest) := by
  simp [float32Decode, float32Encode, List.append_assoc, Nat.mod_eq_of_lt h]

theorem float64_roundtrip (bits : Nat) (rest : Bytes)
    (h : bits < 18446744073709551616) :
    float64Decode (float64Encode [] bits ++ rest) = some (bits, rest) := by
  simp [float64Decode, float64Encode, List.append_assoc, Nat.mod_eq_of_lt h]

theorem bool_roundtrip (b : Bool) (rest : Bytes) :
    boolDecode (boolEncode [] b ++ rest) = some (b, rest) := by
  cases b <;> simp [boolDecode, boolEncode, u8be, List.append_assoc]

theorem dateTimeDecode_enc (m : Int) (rest : Bytes)
    (h1 : -9223372036854775808 ≤ m) (h2 : m < 9223372036854775808) :
    dateTimeDecode (pushUint64 (pushUint32 [] 8) (toUInt64n m) ++ rest) =
      some ((946684800 + m.tdiv 1000000) * 1000000000 +
        1000 * m.tmod 1000000, rest) := by
  have hmod : toUInt64n m % 18446744073709551616 = toUInt64n m :=
    Nat.mod_eq_of_lt (toUInt64n_lt m)
  simp [dateTimeDecode, List.append_assoc, hmod, toInt64_toUInt64n m h1 h2]

theorem dateTime_roundtrip (t : Int) (rest : Bytes)
    (hgran : t % 1000 = 0)
    (hlo : -9223372036854775808 ≤
      (t.fdiv 1000000000 - 946684800) * 1000000 +
        (t - t.fdiv 1000000000 * 1000000000).tdiv 1000)
    (hhi : (t.fdiv 1000000000 - 946684800) * 1000000 +
        (t - t.fdiv 1000000000 * 1000000000).tdiv 1000 < 9223372036854775808) :
    dateTimeDecode (dateTimeEncode [] t ++ rest) = some (t, rest) := by
  have hfdiv : t.fdiv 1000000000 = t / 1000000000 :=
    Int.fdiv_eq_ediv t (by norm_num)
  have hn : t - t.fdiv 1000000000 * 1000000000 = t % 1000000000 := by
    rw [hfdiv, Int.emod_def]; ring
  have hd : (t - t.fdiv 1000000000 * 1000000000) % 1000 = 0 := by
    rw [hn, Int.emod_emod_of_dvd t (by norm_num), hgran]
  obtain ⟨q, hq⟩ : (1000 : Int) ∣ t - t.fdiv 1000000000 * 1000000000 :=
    Int.dvd_of_emod_eq_zero hd
  have hqt : (t - t.fdiv 1000000000 * 1000000000).tdiv 1000 = q := by
    rw [hq]; exact Int.mul_tdiv_cancel_left q (by norm_num)
  have hid := Int.tdiv_add_tmod ((t.fdiv 1000000000 - 946684800) * 1000000 +
      (t - t.fdiv 1000000000 * 1000000000).tdiv 1000) 1000000
  rw [show dateTimeEncode [] t = pushUint64 (pushUint32 [] 8)
        (toUInt64n ((t.fdiv 1000000000 - 946684800) * 1000000 +
          (t - t.fdiv 1000000000 * 1000000000).tdiv 1000)) from rfl,
    dateTimeDecode_enc _ rest hlo hhi]
  simp only [Option.some.injEq, Prod.mk.injEq, and_true]
  linarith [hid, hq, hqt]

theorem durationDecode_enc (m : Int) (rest : Bytes)
    (h1 : -9223372036854775808 ≤ m) (h2 : m < 9223372036854775808) :
    durationDecode (pushUint32 (pushUint32 (pushUint64 (pushUint32 [] 16)
        (toUInt64n m)) 0) 0 ++ rest) = some (wrap64 (m * 1000), rest) := by
  have hmod : toUInt64n m % 18446744073709551616 = toUInt64n m :=
    Nat.mod_eq_of_lt (toUInt64n_lt m)
  simp [durationDecode, List.append_assoc, hmod, toInt64_toUInt64n m h1 h2]

theorem duration_roundtrip (d : Int) (rest : Bytes)
    (hgran : d % 1000 = 0)
    (h1 : -9223372036854775808 ≤ d) (h2 : d < 9223372036854775808) :
    durationDecode (durationEncode [] d ++ rest) = some (d, rest) := by
  obtain ⟨q, hq⟩ : (1000 : Int) ∣ d := Int.dvd_of_emod_eq_zero hgran
  have htd : d.tdiv 1000 = q := by
    rw [hq]; exact Int.mul_tdiv_cancel_left q (by norm_num)
  have hq1 : -9223372036854775808 ≤ q := by omega
  have hq2 : q < 9223372036854775808 := by omega
  have hqd : q * 1000 = d := by omega
  rw [show durationEncode [] d = pushUint32 (pushUint32 (pushUint64
        (pushUint32 [] 16) (toUInt64n (d.tdiv 1000))) 0) 0 from rfl,
    htd, durationDecode_enc q rest hq1 hq2, hqd, wrap64_eq_self d h1 h2]

theorem json_roundtrip {α : Type} (marshal : α → Bytes)
    (unmarshal : Bytes → Option α) (v : α) (rest : Bytes)
    (hrt : unmarshal (marshal v) = some v)
    (hlen : 1 + (marshal v).length < 4294967296) :
    jsonDecode unmarshal (jsonEncode marshal [] v ++ rest) = some (v, rest) := by
  have hm : ((1 + (marshal v).length) % 4294967296 + 4294967295) % 4294967296 =
      (marshal v).length := by omega
  have hle : (marshal v).length ≤ (marshal v ++ rest).length := by
    rw [List.length_append]; omega
  have henc : jsonEncode marshal [] v ++ rest
      = u32be (1 + (marshal v).length) ++ ((1 % 256) :: (marshal v ++ rest)) := by
    simp [jsonEncode, u8be, List.append_assoc]
  rw [henc]
  simp only [jsonDecode]
  rw [popUint32_u32be, Option.some_bind, popUint8_cons, Option.some_bind, hm,
    if_pos hle, List.take_left, List.drop_left, hrt, Option.map_some']

/-! ## Claim C1: scalar round-trips -/

/-- C1 counterexample: the claim includes Duration values of maximum
magnitude, but the Go `time.Duration` value `2^63 - 1` nanoseconds does not
survive `Decode(Encode(v))`: the wire stores whole microseconds, so
`duration/1000` then `*1000` drops the 807 ns remainder and returns
`9223372036854775000` instead. -/
theorem C1_counterexample :
    durationDecode (durationEncode [] 9223372036854775807) =
      some (9223372036854775000, []) ∧
    (9223372036854775000 : Int) ≠ 9223372036854775807 := by
  exact ⟨by decide, by decide⟩

/-- C1 (amended): for every supported scalar kind, `Decode(Encode(v)) = v`
for every value the kind's wire format represents exactly — all UUIDs,
strings, byte strings, int16/32/64, float bit patterns and booleans, and
DateTime/Duration values at whole-microsecond granularity whose microsecond
count fits in int64 (sub-microsecond values, e.g. a Duration at maximum
int64 nanosecond magnitude, are truncated by the microsecond wire format).
Decoding also leaves any trailing bytes untouched. -/
theorem C1_scalar_roundtrip :
    (∀ (u rest : Bytes), u.length = 16 →
      uuidDecode (uuidEncode [] u ++ rest) = some (u, rest)) ∧
    (∀ (s rest : Bytes), s.length < 4294967296 →
      stringDecode (stringEncode [] s ++ rest) = some (s, rest)) ∧
    (∀ (b rest : Bytes), b.length < 4294967296 →
      bytesDecode (bytesEncode [] b ++ rest) = some (b, rest)) ∧
    (∀ (v : Int) (rest : Bytes), -32768 ≤ v → v < 32768 →
      int16Decode (int16Encode [] v ++ rest) = some (v, rest)) ∧
    (∀ (v : Int) (rest : Bytes), -2147483648 ≤ v → v < 2147483648 →
      int32Decode (int32Encode [] v ++ rest) = some (v, rest)) ∧
    (∀ (v : Int) (rest : Bytes),
      -9223372036854775808 ≤ v → v < 9223372036854775808 →
      int64Decode (int64Encode [] v ++ rest) = some (v, rest)) ∧
    (∀ (bits : Nat) (rest : Bytes), bits < 4294967296 →
      float32Decode (float32Encode [] bits ++ rest) = some (bits, rest)) ∧
    (∀ (bits : Nat) (rest : Bytes), bits < 18446744073709551616 →
      float64Decode (float64Encode [] bits ++ rest) = some (bits, rest)) ∧
    (∀ (b : Bool) (rest : Bytes),
      boolDecode (boolEncode [] b ++ rest) = some (b, rest)) ∧
    (∀ (t : Int) (rest : Bytes), t % 1000 = 0 →
      -9223372036854775808 ≤ (t.fdiv 1000000000 - 946684800) * 1000000 +
          (t - t.fdiv 1000000000 * 1000000000).tdiv 1000 →
      (t.fdiv 1000000000 - 946684800) * 1000000 +
          (t - t.fdiv 1000000000 * 1000000000).tdiv 1000 <
        9223372036854775808 →
      dateTimeDecode (dateTimeEncode [] t ++ rest) = some (t, rest)) ∧
    (∀ (d : Int) (rest : Bytes), d % 1000 = 0 →
      -9223372036854775808 ≤ d → d < 9223372036854775808 →
      durationDecode (durationEncode [] d ++ rest) = some (d, rest)) ∧
    (∀ (α : Type) (marshal : α → Bytes) (unmarshal : Bytes → Option α)
        (v : α) (rest : Bytes), unmarshal (marshal v) = some v →
      1 + (marshal v).length < 4294967296 →
      jsonDecode unmarshal (jsonEncode marshal [] v ++ rest) = some (v, rest)) :=
  ⟨uuid_roundtrip, string_roundtrip, bytes_roundtrip, int16_roundtrip,
   int32_roundtrip, int64_roundtrip, float32_roundtrip, float64_roundtrip,
   bool_roundtrip, dateTime_roundtrip, duration_roundtrip,
   fun _ marshal unmarshal v rest h1 h2 =>
     json_roundtrip marshal unmarshal v rest h1 h2⟩

/-- C1 witness: each conjunct of the round-trip theorem instantiated at a
concrete representative value, hypotheses discharged by computation. -/
theorem C1_witness :
    uuidDecode (uuidEncode [] [0, 1, 2, 3, 4, 5, 6, 7, 8, 9, 10, 11, 12, 13, 14, 15]) =
      some ([0, 1, 2, 3, 4, 5, 6, 7, 8, 9, 10, 11, 12, 13, 14, 15], []) ∧
    stringDecode (stringEncode [] [104, 105]) = some ([104, 105], []) ∧
    bytesDecode (bytesEncode [] [0, 255]) = some ([0, 255], []) ∧
    int16Decode (int16Encode [] (-32768)) = some (-32768, []) ∧
    int32Decode (int32Encode [] (-2147483648)) = some (-2147483648, []) ∧
    int64Decode (int64Encode [] 9223372036854775807) =
      some (9223372036854775807, []) ∧
    float32Decode (float32Encode [] 4294967295) = some (4294967295, []) ∧
    float64Decode (float64Encode [] 18446744073709551615) =
      some (18446744073709551615, []) ∧
    boolDecode (boolEncode [] true) = some (true, []) ∧
    dateTimeDecode (dateTimeEncode [] (-1000)) = some (-1000, []) ∧
    durationDecode (durationEncode [] (-5000)) = some (-5000, []) ∧
    jsonDecode boolUnmarshal (jsonEncode boolMarshal [] true) =
      some (true, []) := by
  obtain ⟨h1, h2, h3, h4, h5, h6, h7, h8, h9, h10, h11, h12⟩ :=
    C1_scalar_roundtrip
  refine ⟨?_, ?_, ?_, ?_, ?_, ?_, ?_, ?_, ?_, ?_, ?_, ?_⟩
  · simpa using h1 [0, 1, 2, 3, 4, 5, 6, 7, 8, 9, 10, 11, 12, 13, 14, 15] []
      (by decide)
  · simpa using h2 [104, 105] [] (by decide)
  · simpa using h3 [0, 255] [] (by decide)
  · simpa using h4 (-32768) [] (by decide) (by decide)
  · simpa using h5 (-2147483648) [] (by decide) (by decide)
  · simpa using h6 9223372036854775807 [] (by decide) (by decide)
  · simpa using h7 4294967295 [] (by decide)
  · simpa using h8 18446744073709551615 [] (by decide)
  · simpa using h9 true []
  · simpa using h10 (-1000) [] (by decide) (by decide) (by decide)
  · simpa using h11 (-5000) [] (by decide) (by decide) (by decide)
  · simpa using h12 Bool boolMarshal boolUnmarshal true [] (by decide) (by decide)

/-! ## Claims C2 and C10: Set and Array decoding -/

theorem decodeN_exact {α : Type} (child : Bytes → Option (α × Bytes))
    (elems : List (Bytes × α)) (tail : Bytes)
    (hch : ∀ p ∈ elems, ∀ t : Bytes, child (p.1 ++ t) = some (p.2, t)) :
    decodeN child elems.length ((elems.map Prod.fst).flatten ++ tail) =
      some (elems.map Prod.snd, tail) := by
  induction elems with
  | nil => simp [decodeN]
  | cons e es ih =>
      have hhead := hch e (List.mem_cons_self e es)
        ((es.map Prod.fst).flatten ++ tail)
      have htail := ih fun p hp t => hch p (List.mem_cons_of_mem e hp) t
      simp only [List.map_cons, List.flatten_cons, List.append_assoc,
        List.length_cons, decodeN, hhead, Option.some_bind, htail,
        Option.map_some']

theorem setDecodeL_empty {α : Type} (child : Bytes → Option (α × Bytes))
    (junk rest : Bytes) (h : 4 + junk.length < 4294967296) :
    setDecodeL child (pushBytes [] (u32be 0 ++ junk) ++ rest) =
      some ([], rest) := by
  have hlen : (u32be 0 ++ junk).length < 4294967296 := by
    simpa using h
  unfold setDecodeL
  rw [popBytes_pushBytes _ rest hlen, Option.some_bind, popUint32_u32be,
    Option.some_bind, if_pos (by norm_num)]

theorem setDecodeL_elems {α : Type} (child : Bytes → Option (α × Bytes))
    (dim w1 w2 : Nat) (upper lower : Int) (elems : List (Bytes × α))
    (rest : Bytes)
    (hdim0 : ¬ dim % 4294967296 = 0)
    (hu1 : -2147483648 ≤ upper) (hu2 : upper < 2147483648)
    (hl1 : -2147483648 ≤ lower) (hl2 : lower < 2147483648)
    (hn0 : 0 ≤ upper - lower + 1) (hn1 : upper - lower + 1 < 2147483648)
    (hcount : (elems.length : Int) = upper - lower + 1)
    (hch : ∀ p ∈ elems, ∀ t : Bytes, child (p.1 ++ t) = some (p.2, t))
    (hlen : 20 + ((elems.map Prod.fst).flatten).length < 4294967296) :
    setDecodeL child (pushBytes []
        (u32be dim ++ u32be w1 ++ u32be w2 ++ u32be (toUInt32n upper) ++
          u32be (toUInt32n lower) ++ (elems.map Prod.fst).flatten) ++ rest) =
      some (elems.map Prod.snd, rest) := by
  have habsU : toUInt32n upper % 4294967296 = toUInt32n upper :=
    Nat.mod_eq_of_lt (toUInt32n_lt upper)
  have habsL : toUInt32n lower % 4294967296 = toUInt32n lower :=
    Nat.mod_eq_of_lt (toUInt32n_lt lower)
  have hU : toInt32 (toUInt32n upper) = upper := toInt32_toUInt32n upper hu1 hu2
  have hL : toInt32 (toUInt32n lower) = lower := toInt32_toUInt32n lower hl1 hl2
  have hw : wrap32 (upper - lower + 1) = upper - lower + 1 :=
    wrap32_eq_self _ (by omega) hn1
  have hnn : ¬ upper - lower + 1 < 0 := by omega
  have htn : (upper - lower + 1).toNat = elems.length := by omega
  have hdec := decodeN_exact child elems [] hch
  rw [List.append_nil] at hdec
  have hplen : (u32be dim ++ u32be w1 ++ u32be w2 ++ u32be (toUInt32n upper) ++
      u32be (toUInt32n lower) ++ (elems.map Prod.fst).flatten).length <
        4294967296 := by
    simp only [List.length_append, u32be_length]
    omega
  unfold setDecodeL
  rw [popBytes_pushBytes _ rest hplen, Option.some_bind]
  simp only [List.append_assoc]
  rw [popUint32_u32be, Option.some_bind, if_neg hdim0, popUint32_u32be,
    Option.some_bind, popUint32_u32be, Option.some_bind, popUint32_u32be,
    Option.some_bind, popUint32_u32be, Option.some_bind, habsU, habsL, hU, hL,
    hw, if_neg hnn, htn, hdec, Option.map_some']

theorem arrayDecodeL_eq_setDecodeL {α : Type}
    (child : Bytes → Option (α × Bytes)) (bts : Bytes) :
    arrayDecodeL child bts = setDecodeL child bts := rfl

/-- C2: for every Set or Array value envelope, decode reads the 32-bit
dimension count; a zero count yields the empty collection without touching
the rest of the envelope's payload; a nonzero count is followed by two
skipped reserved words and signed upper/lower bounds, and exactly
`upper - lower + 1` child elements are decoded in order, each consuming
exactly its own child-codec envelope. -/
theorem C2_collection_decode :
    (∀ (α : Type) (child : Bytes → Option (α × Bytes)) (junk rest : Bytes),
      4 + junk.length < 4294967296 →
      setDecodeL child (pushBytes [] (u32be 0 ++ junk) ++ rest) =
        some ([], rest)) ∧
    (∀ (α : Type) (child : Bytes → Option (α × Bytes)) (dim w1 w2 : Nat)
        (upper lower : Int) (elems : List (Bytes × α)) (rest : Bytes),
      ¬ dim % 4294967296 = 0 →
      -2147483648 ≤ upper → upper < 2147483648 →
      -2147483648 ≤ lower → lower < 2147483648 →
      0 ≤ upper - lower + 1 → upper - lower + 1 < 2147483648 →
      (elems.length : Int) = upper - lower + 1 →
      (∀ p ∈ elems, ∀ t : Bytes, child (p.1 ++ t) = some (p.2, t)) →
      20 + ((elems.map Prod.fst).flatten).length < 4294967296 →
      setDecodeL child (pushBytes []
          (u32be dim ++ u32be w1 ++ u32be w2 ++ u32be (toUInt32n upper) ++
            u32be (toUInt32n lower) ++ (elems.map Prod.fst).flatten) ++ rest) =
        some (elems.map Prod.snd, rest)) ∧
    (∀ (α : Type) (child : Bytes → Option (α × Bytes)) (junk rest : Bytes),
      4 + junk.length < 4294967296 →
      arrayDecodeL child (pushBytes [] (u32be 0 ++ junk) ++ rest) =
        some ([], rest)) ∧
    (∀ (α : Type) (child : Bytes → Option (α × Bytes)) (dim w1 w2 : Nat)
        (upper lower : Int) (elems : List (Bytes × α)) (rest : Bytes),
      ¬ dim % 4294967296 = 0 →
      -2147483648 ≤ upper → upper < 2147483648 →
      -2147483648 ≤ lower → lower < 2147483648 →
      0 ≤ upper - lower + 1 → upper - lower + 1 < 2147483648 →
      (elems.length : Int) = upper - lower + 1 →
      (∀ p ∈ elems, ∀ t : Bytes, child (p.1 ++ t) = some (p.2, t)) →
      20 + ((elems.map Prod.fst).flatten).length < 4294967296 →
      arrayDecodeL child (pushBytes []
          (u32be dim ++ u32be w1 ++ u32be w2 ++ u32be (toUInt32n upper) ++
            u32be (toUInt32n lower) ++ (elems.map Prod.fst).flatten) ++ rest) =
        some (elems.map Prod.snd, rest)) := by
  refine ⟨fun α => setDecodeL_empty, fun α => setDecodeL_elems, ?_, ?_⟩
  · intro α child junk rest h
    rw [arrayDecodeL_eq_setDecodeL]
    exact setDecodeL_empty child junk rest h
  · intro α child dim w1 w2 upper lower elems rest h1 h2 h3 h4 h5 h6 h7 h8 h9 h10
    rw [arrayDecodeL_eq_setDecodeL]
    exact setDecodeL_elems child dim w1 w2 upper lower elems rest
      h1 h2 h3 h4 h5 h6 h7 h8 h9 h10

/-- C2 witness: a two-element int32 collection with bounds upper=2,
lower=1, and an empty collection whose envelope carries trailing junk. -/
theorem C2_witness :
    setDecodeL int32Decode (pushBytes [] (u32be 0 ++ [9, 9]) ++ [7]) =
      some ([], [7]) ∧
    setDecodeL int32Decode (pushBytes []
        (u32be 1 ++ u32be 0 ++ u32be 0 ++ u32be (toUInt32n 2) ++
          u32be (toUInt32n 1) ++
          ([(int32Encode [] 5, (5 : Int)), (int32Encode [] 7, 7)].map
            Prod.fst).flatten) ++ [9]) =
      some ([5, 7], [9]) ∧
    arrayDecodeL int32Decode (pushBytes [] (u32be 0 ++ [9, 9]) ++ [7]) =
      some ([], [7]) ∧
    arrayDecodeL int32Decode (pushBytes []
        (u32be 1 ++ u32be 0 ++ u32be 0 ++ u32be (toUInt32n 2) ++
          u32be (toUInt32n 1) ++
          ([(int32Encode [] 5, (5 : Int)), (int32Encode [] 7, 7)].map
            Prod.fst).flatten) ++ [9]) =
      some ([5, 7], [9]) := by
  obtain ⟨hs0, hs1, ha0, ha1⟩ := C2_collection_decode
  have hch : ∀ p ∈ [(int32Encode [] 5, (5 : Int)), (int32Encode [] 7, 7)],
      ∀ t : Bytes, int32Decode (p.1 ++ t) = some (p.2, t) := by
    intro p hp t
    rcases List.mem_cons.mp hp with h | h
    · subst h; exact int32_roundtrip 5 t (by decide) (by decide)
    · rcases List.mem_cons.mp h with h | h
      · subst h; exact int32_roundtrip 7 t (by decide) (by decide)
      · simp at h
  refine ⟨hs0 Int int32Decode [9, 9] [7] (by decide),
    ?_, ha0 Int int32Decode [9, 9] [7] (by decide), ?_⟩
  · have := hs1 Int int32Decode 1 0 0 2 1
      [(int32Encode [] 5, (5 : Int)), (int32Encode [] 7, 7)] [9]
      (by decide) (by decide) (by decide) (by decide) (by decide)
      (by decide) (by decide) (by decide) hch (by decide)
    simpa using this
  · have := ha1 Int int32Decode 1 0 0 2 1
      [(int32Encode [] 5, (5 : Int)), (int32Encode [] 7, 7)] [9]
      (by decide) (by decide) (by decide) (by decide) (by decide)
      (by decide) (by decide) (by decide) hch (by decide)
    simpa using this

/-- C10: `Set.Decode` and `Array.Decode` are extensionally equal up to the
collection wrapper: on every byte buffer and every shared child codec they
consume the same bytes and produce the same ordered element sequence (the
source duplicates the algorithm verbatim). -/
theorem C10_set_array_decode_equal {α : Type}
    (child : Bytes → Option (α × Bytes)) (bts : Bytes) :
    setDecodeL child bts = arrayDecodeL child bts := rfl

/-! ## Claim C3: Object decoding -/

theorem toInt32_small (n : Nat) (h : n < 2147483648) : toInt32 n = (n : Int) := by
  simp [toInt32, h]

theorem objLoop_exact (fields : List ObjField)
    (segs : List (Nat × Bytes × Value)) (tail : Bytes)
    (hR : List.Forall₂ Rfield fields segs) :
    objLoop segs.length fields
        ((segs.map fun s => u32be s.1 ++ s.2.1).flatten ++ tail) =
      some (List.zipWith (fun (f : ObjField) s => (f.name, s.2.2)) fields segs,
        tail) := by
  induction hR with
  | nil => simp [objLoop]
  | @cons f s fields' segs' hfs hrest ih =>
      simp only [List.map_cons, List.flatten_cons, List.append_assoc,
        List.length_cons, List.zipWith_cons_cons]
      rw [objLoop, popUint32_u32be, Option.some_bind]
      rcases hfs with ⟨hsent, hval⟩ | ⟨⟨pk, hpk, hpkne⟩, hcodec⟩
      · rw [hsent]
        have hpeek : peekUint32 (([255, 255, 255, 255] : Bytes) ++
            ((segs'.map fun s => u32be s.1 ++ s.2.1).flatten ++ tail)) =
              some 4294967295 := rfl
        rw [hpeek, Option.some_bind, if_pos (by decide),
          show popUint32 (([255, 255, 255, 255] : Bytes) ++
            ((segs'.map fun s => u32be s.1 ++ s.2.1).flatten ++ tail)) =
              some (4294967295, (segs'.map fun s => u32be s.1 ++ s.2.1).flatten
                ++ tail) from rfl,
          Option.some_bind, ih, Option.map_some', hval]
      · rw [peekUint32_append _ _ pk hpk, Option.some_bind, if_neg hpkne,
          hcodec ((segs'.map fun s => u32be s.1 ++ s.2.1).flatten ++ tail),
          Option.some_bind, ih, Option.map_some']

/-- C3: an Object decode processes each declared field in order: it skips
one 32-bit reserved word, and when the next signed 32-bit length peeks as
`-1` it consumes exactly those 4 bytes and records the field as the
empty-collection placeholder `types.Set{}`; otherwise the field codec
decodes the field.  The result maps each declared field name, in declared
order, to its decoded value. -/
theorem C3_object_decode (fields : List ObjField)
    (segs : List (Nat × Bytes × Value)) (rest : Bytes)
    (hR : List.Forall₂ Rfield fields segs)
    (hflen : fields.length < 2147483648)
    (hplen : (u32be fields.length ++
        (segs.map fun s => u32be s.1 ++ s.2.1).flatten).length < 4294967296) :
    objectDecode fields (pushBytes []
        (u32be fields.length ++
          (segs.map fun s => u32be s.1 ++ s.2.1).flatten) ++ rest) =
      some (List.zipWith (fun (f : ObjField) s => (f.name, s.2.2)) fields segs,
        rest) := by
  have hlen12 : fields.length = segs.length := hR.length_eq
  have habs : fields.length % 4294967296 = fields.length :=
    Nat.mod_eq_of_lt (by omega)
  have hcnt : (toInt32 (fields.length % 4294967296)).toNat = segs.length := by
    rw [habs, toInt32_small _ hflen]; omega
  have hdec := objLoop_exact fields segs [] hR
  rw [List.append_nil] at hdec
  unfold objectDecode
  rw [popBytes_pushBytes _ rest hplen, Option.some_bind]
  simp only [List.append_assoc]
  rw [popUint32_u32be, Option.some_bind, hcnt, hdec, Option.map_some']

/-- C3 witness: a two-field object whose first field decodes an int32 from
its own envelope and whose second field is the 4-byte `-1` sentinel
(with a nonzero reserved word, showing reserved words are skipped). -/
theorem C3_witness :
    objectDecode
      [⟨false, false, false, [97], int32DecodeV⟩,
       ⟨false, false, false, [98], int32DecodeV⟩]
      (pushBytes []
        (u32be 2 ++
          ([((0 : Nat), (int32Encode [] 5, Value.int32 5)),
            ((7 : Nat), (([255, 255, 255, 255] : Bytes), Value.set []))].map
              fun s => u32be s.1 ++ s.2.1).flatten) ++ [3]) =
      some ([([97], Value.int32 5), ([98], Value.set [])], [3]) := by
  have hch : ∀ t : Bytes,
      int32DecodeV (int32Encode [] 5 ++ t) = some (Value.int32 5, t) := by
    intro t
    simp [int32DecodeV, int32_roundtrip 5 t (by decide) (by decide)]
  have hR : List.Forall₂ Rfield
      [⟨false, false, false, [97], int32DecodeV⟩,
       ⟨false, false, false, [98], int32DecodeV⟩]
      [((0 : Nat), (int32Encode [] 5, Value.int32 5)),
       ((7 : Nat), (([255, 255, 255, 255] : Bytes), Value.set []))] := by
    refine List.Forall₂.cons (Or.inr ⟨⟨4, by decide, by decide⟩, hch⟩) ?_
    exact List.Forall₂.cons (Or.inl ⟨rfl, rfl⟩) List.Forall₂.nil
  have := C3_object_decode
    [⟨false, false, false, [97], int32DecodeV⟩,
     ⟨false, false, false, [98], int32DecodeV⟩]
    [((0 : Nat), (int32Encode [] 5, Value.int32 5)),
     ((7 : Nat), (([255, 255, 255, 255] : Bytes), Value.set []))]
    [3] hR (by decide) (by decide)
  simpa using this

/-! ## Claim C4: Bool validation -/

/-- C4: Bool decode reads a single payload byte after the 32-bit length
word; every byte value greater than 1 is a decode error (a Go panic,
modelled `none`) and is never coerced to `true`; byte 0 decodes to `false`
and byte 1 to `true`. -/
theorem C4_bool_validation :
    (∀ (len b : Nat) (rest : Bytes), 1 < b →
      boolDecode (pushUint32 [] len ++ b :: rest) = none) ∧
    (∀ (len : Nat) (rest : Bytes),
      boolDecode (pushUint32 [] len ++ 0 :: rest) = some (false, rest)) ∧
    (∀ (len : Nat) (rest : Bytes),
      boolDecode (pushUint32 [] len ++ 1 :: rest) = some (true, rest)) := by
  refine ⟨?_, ?_, ?_⟩
  · intro len b rest hb
    simp [boolDecode, hb]
  · intro len rest
    simp [boolDecode]
  · intro len rest
    simp [boolDecode]

/-- C4 witness: payload byte 2 fails; bytes 0 and 1 decode to `false` and
`true`. -/
theorem C4_witness :
    boolDecode (pushUint32 [] 1 ++ 2 :: []) = none ∧
    boolDecode (pushUint32 [] 1 ++ 0 :: []) = some (false, []) ∧
    boolDecode (pushUint32 [] 1 ++ 1 :: []) = some (true, []) :=
  ⟨C4_bool_validation.1 1 2 [] (by decide), C4_bool_validation.2.1 1 [],
   C4_bool_validation.2.2 1 []⟩

/-! ## Claim C5: empty Tuple encoding -/

/-- C5: encoding a Tuple with an empty declared field list appends exactly
8 bytes — a 32-bit length word equal to 4 followed by a 32-bit element
count equal to 0 — with no reserved words and no per-element payload, for
every argument value. -/
theorem C5_empty_tuple_encode (bts : Bytes) (val : Value) :
    tupleEncode [] bts val = some (bts ++ [0, 0, 0, 4, 0, 0, 0, 0]) := by
  simp [tupleEncode, u32be]

/-! ## Claim C6: Array encoding -/

theorem encodeArrayElems_exact (child : ValEncoder) (enc : Value → Bytes)
    (xs : List Value) (tmp : Bytes)
    (hch : ∀ v ∈ xs, ∀ acc : Bytes, child acc v = some (acc ++ enc v)) :
    encodeArrayElems child tmp xs = some (tmp ++ (xs.map enc).flatten) := by
  induction xs generalizing tmp with
  | nil => simp [encodeArrayElems]
  | cons x xs' ih =>
      rw [encodeArrayElems, hch x (List.mem_cons_self x xs'), Option.some_bind,
        ih (tmp ++ enc x) fun v hv acc => hch v (List.mem_cons_of_mem x hv) acc]
      simp [List.append_assoc]

/-- C6: Array encode emits dimension count 1, two zero reserved words and
the fixed bound pair upper=3, lower=1 regardless of the input sequence's
length, while the payload after the bounds is exactly one encoded chunk
per input element, in input order (so the element count encoded equals the
input length, which can disagree with the emitted bounds). -/
theorem C6_array_encode (child : ValEncoder) (enc : Value → Bytes)
    (xs : List Value) (bts : Bytes)
    (hch : ∀ v ∈ xs, ∀ acc : Bytes, child acc v = some (acc ++ enc v)) :
    arrayEncode child bts (Value.list xs) =
      some (bts ++ u32be (20 + ((xs.map enc).flatten).length) ++
        (u32be 1 ++ u32be 0 ++ u32be 0 ++ u32be 3 ++ u32be 1 ++
          (xs.map enc).flatten)) := by
  have henc := encodeArrayElems_exact child enc xs
    (pushUint32 (pushUint32 (pushUint32 (pushUint32 (pushUint32 [] 1) 0) 0) 3) 1)
    hch
  unfold arrayEncode
  rw [show castList (Value.list xs) = some xs from rfl, Option.some_bind, henc,
    Option.map_some']
  simp only [pushUint32_eq, List.nil_append, List.length_append, u32be_length,
    List.append_assoc]
  rw [show 4 + (4 + (4 + (4 + (4 + (List.map enc xs).flatten.length)))) =
      20 + (List.map enc xs).flatten.length from by omega]

/-- C6 witness: a two-element int32 array — the emitted header is
`[dim=1][0][0][upper=3][lower=1]` although the array has 2 elements, and
both elements are encoded. -/
theorem C6_witness :
    arrayEncode int32EncodeV [] (Value.list [Value.int32 5, Value.int32 7]) =
      some [0, 0, 0, 36, 0, 0, 0, 1, 0, 0, 0, 0, 0, 0, 0, 0, 0, 0, 0, 3,
        0, 0, 0, 1, 0, 0, 0, 4, 0, 0, 0, 5, 0, 0, 0, 4, 0, 0, 0, 7] := by
  have hch : ∀ v ∈ [Value.int32 5, Value.int32 7], ∀ acc : Bytes,
      int32EncodeV acc v = some (acc ++ int32enc v) := by
    intro v hv acc
    rcases List.mem_cons.mp hv with rfl | hv2
    · simp [int32EncodeV, int32enc, int32Encode, List.append_assoc]
    · rcases List.mem_cons.mp hv2 with rfl | hv3
      · simp [int32EncodeV, int32enc, int32Encode, List.append_assoc]
      · simp at hv3
  rw [C6_array_encode int32EncodeV int32enc [Value.int32 5, Value.int32 7] []
    hch]
  decide

/-! ## Claim C9: NamedTuple encoding of missing fields -/

theorem encodeNamedFields_none (fields : List (Bytes × ValEncoder))
    (tmp : Bytes) (m : List (Bytes × Value))
    (h : ∃ f ∈ fields, List.lookup f.1 m = none ∧
      ∀ acc : Bytes, f.2 acc Value.nil = none) :
    encodeNamedFields fields tmp m = none := by
  induction fields generalizing tmp with
  | nil =>
      rcases h with ⟨f, hf, _⟩
      simp at hf
  | cons g fs ih =>
      rcases h with ⟨f, hf, hmiss, hrej⟩
      rcases List.mem_cons.mp hf with rfl | hmem
      · simp [encodeNamedFields, hmiss, hrej]
      · rw [encodeNamedFields]
        cases hg : g.2 (pushUint32 tmp 0) ((List.lookup g.1 m).getD Value.nil)
          with
        | none => rfl
        | some tmp2 =>
            rw [Option.some_bind]
            exact ih tmp2 ⟨f, hmem, hmiss, hrej⟩

/-- C9 counterexample: a NamedTuple with one declared field `a` whose field
codec is the zero-arity Tuple codec encodes the empty input map — the key
`a` is missing, yet encoding succeeds because `Tuple.Encode` returns its
empty-tuple special case before ever inspecting the (nil) value.  The
claim that encoding fails for every missing declared field is therefore
false. -/
theorem C9_counterexample :
    namedTupleEncode [([97], tupleEncode [])] [] (Value.strMap []) =
      some [0, 0, 0, 16, 0, 0, 0, 1, 0, 0, 0, 0, 0, 0, 0, 4, 0, 0, 0, 0] ∧
    ¬ namedTupleEncode [([97], tupleEncode [])] [] (Value.strMap []) = none := by
  constructor
  · decide
  · decide

/-- C9 (amended): NamedTuple encode looks up each declared field's value by
name in the input mapping; a missing key yields Go's nil `interface{}`,
which is handed to the field codec, so encoding fails whenever some
declared field is missing and its codec rejects nil — which every
type-asserting scalar codec does.  (The zero-arity Tuple codec — see the
counterexample — and the JSON codec, which marshals nil as `null`, are the
exceptions.) -/
theorem C9_missing_field_encode :
    (∀ (fields : List (Bytes × ValEncoder)) (bts : Bytes)
        (m : List (Bytes × Value)),
      (∃ f ∈ fields, List.lookup f.1 m = none ∧
        ∀ acc : Bytes, f.2 acc Value.nil = none) →
      namedTupleEncode fields bts (Value.strMap m) = none) ∧
    (∀ acc : Bytes, uuidEncodeV acc Value.nil = none) ∧
    (∀ acc : Bytes, stringEncodeV acc Value.nil = none) ∧
    (∀ acc : Bytes, bytesEncodeV acc Value.nil = none) ∧
    (∀ acc : Bytes, int16EncodeV acc Value.nil = none) ∧
    (∀ acc : Bytes, int32EncodeV acc Value.nil = none) ∧
    (∀ acc : Bytes, int64EncodeV acc Value.nil = none) ∧
    (∀ acc : Bytes, float32EncodeV acc Value.nil = none) ∧
    (∀ acc : Bytes, float64EncodeV acc Value.nil = none) ∧
    (∀ acc : Bytes, boolEncodeV acc Value.nil = none) ∧
    (∀ acc : Bytes, dateTimeEncodeV acc Value.nil = none) ∧
    (∀ acc : Bytes, durationEncodeV acc Value.nil = none) := by
  refine ⟨?_, fun _ => rfl, fun _ => rfl, fun _ => rfl, fun _ => rfl,
    fun _ => rfl, fun _ => rfl, fun _ => rfl, fun _ => rfl, fun _ => rfl,
    fun _ => rfl, fun _ => rfl⟩
  intro fields bts m h
  unfold namedTupleEncode
  rw [show castMap (Value.strMap m) = some m from rfl, Option.some_bind,
    encodeNamedFields_none fields _ m h]
  rfl

/-- C9 witness: a NamedTuple with one declared int16 field fails to encode
the empty input map. -/
theorem C9_witness :
    namedTupleEncode [([97], int16EncodeV)] [] (Value.strMap []) = none :=
  C9_missing_field_encode.1 [([97], int16EncodeV)] [] []
    ⟨([97], int16EncodeV), List.mem_cons_self _ _, rfl, fun _ => rfl⟩

/-! ## Claim C7: unknown descriptor tags -/

/-- C7: a descriptor stream whose next tag byte is outside the recognized
set (for example `0x7F = 127`) makes registry construction fail — at any
loop state, and for `Pop` on a whole stream — with a protocol error that
carries the offending tag and the remaining bytes; the error result
returns no (partially-built) registry to the caller. -/
theorem C7_unknown_tag :
    (∀ (fuel : Nat) (lookup : CodecLookup) (codecs : List Codec)
        (id rest : Bytes), id.length = 16 →
      popLoop (fuel + 1) lookup codecs (127 :: (id ++ rest)) =
        .error (.unknownTag 127 rest)) ∧
    (∀ (id rest : Bytes), id.length = 16 →
      Pop (127 :: (id ++ rest)) = .error (.unknownTag 127 rest)) := by
  have main : ∀ (fuel : Nat) (lookup : CodecLookup) (codecs : List Codec)
      (id rest : Bytes), id.length = 16 →
      popLoop (fuel + 1) lookup codecs (127 :: (id ++ rest)) =
        .error (.unknownTag 127 rest) := by
    intro fuel lookup codecs id rest h
    simp only [popLoop, popUUID_append id rest h]
  refine ⟨main, ?_⟩
  intro id rest h
  have h1 := main (id ++ rest).length [] [] id rest h
  simpa [Pop] using h1

/-- C7 witness: tag `0x7F` with a 16-zero-byte id and one trailing byte. -/
theorem C7_witness :
    Pop (127 :: ([0, 0, 0, 0, 0, 0, 0, 0, 0, 0, 0, 0, 0, 0, 0, 0] ++ [9])) =
      .error (.unknownTag 127 [9]) :=
  C7_unknown_tag.2 [0, 0, 0, 0, 0, 0, 0, 0, 0, 0, 0, 0, 0, 0, 0, 0] [9]
    (by decide)

/-! ## Claim C8: forward references -/

/-- C8: a composite descriptor (Set, Object, Tuple, NamedTuple or Array)
that references a codec index `k` not strictly below its own position in
the stream (the number of codecs parsed so far) makes registry
construction fail with a `badIndex` protocol error instead of indexing out
of bounds: stated at an arbitrary loop state for a Set descriptor, an
Object descriptor with one field, a Tuple descriptor with one index, a
NamedTuple descriptor with one field, and an Array descriptor with zero
dimension words. -/
theorem C8_forward_reference :
    (∀ (fuel : Nat) (lookup : CodecLookup) (codecs : List Codec)
        (id : Bytes) (k : Nat) (rest : Bytes),
      id.length = 16 → codecs.length ≤ k → k < 65536 →
      popLoop (fuel + 1) lookup codecs (0 :: (id ++ (u16be k ++ rest))) =
        .error (.badIndex k)) ∧
    (∀ (fuel : Nat) (lookup : CodecLookup) (codecs : List Codec)
        (id : Bytes) (flags : Nat) (nm : Bytes) (k : Nat) (rest : Bytes),
      id.length = 16 → nm.length < 4294967296 → codecs.length ≤ k →
      k < 65536 →
      popLoop (fuel + 1) lookup codecs
          (1 :: (id ++ (u16be 1 ++ (u8be flags ++ (pushBytes [] nm ++
            (u16be k ++ rest)))))) =
        .error (.badIndex k)) ∧
    (∀ (fuel : Nat) (lookup : CodecLookup) (codecs : List Codec)
        (id : Bytes) (k : Nat) (rest : Bytes),
      id.length = 16 → codecs.length ≤ k → k < 65536 →
      popLoop (fuel + 1) lookup codecs
          (4 :: (id ++ (u16be 1 ++ (u16be k ++ rest)))) =
        .error (.badIndex k)) ∧
    (∀ (fuel : Nat) (lookup : CodecLookup) (codecs : List Codec)
        (id : Bytes) (nm : Bytes) (k : Nat) (rest : Bytes),
      id.length = 16 → nm.length < 4294967296 → codecs.length ≤ k →
      k < 65536 →
      popLoop (fuel + 1) lookup codecs
          (5 :: (id ++ (u16be 1 ++ (pushBytes [] nm ++ (u16be k ++ rest))))) =
        .error (.badIndex k)) ∧
    (∀ (fuel : Nat) (lookup : CodecLookup) (codecs : List Codec)
        (id : Bytes) (k : Nat) (rest : Bytes),
      id.length = 16 → codecs.length ≤ k → k < 65536 →
      popLoop (fuel + 1) lookup codecs
          (6 :: (id ++ (u16be k ++ (u16be 0 ++ rest)))) =
        .error (.badIndex k)) := by
  refine ⟨?_, ?_, ?_, ?_, ?_⟩
  · intro fuel lookup codecs id k rest h hk hk16
    have hnone : codecs[k]? = none := List.getElem?_eq_none hk
    simp only [popLoop, popUUID_append id _ h, popSetCodecD, popUint16_u16be,
      hnone, Nat.mod_eq_of_lt hk16]
  · intro fuel lookup codecs id flags nm k rest h hnm hk hk16
    have hnone : codecs[k]? = none := List.getElem?_eq_none hk
    simp only [popLoop, popUUID_append id _ h, popObjectCodecD,
      popUint16_u16be, popObjFieldsD, u8be, List.cons_append, List.nil_append,
      popUint8_cons, popString, popBytes_pushBytes nm _ hnm, hnone,
      Nat.mod_eq_of_lt hk16]
  · intro fuel lookup codecs id k rest h hk hk16
    have hnone : codecs[k]? = none := List.getElem?_eq_none hk
    simp only [popLoop, popUUID_append id _ h, popTupleCodecD,
      popUint16_u16be, popTupleIdxsD, hnone, Nat.mod_eq_of_lt hk16]
  · intro fuel lookup codecs id nm k rest h hnm hk hk16
    have hnone : codecs[k]? = none := List.getElem?_eq_none hk
    simp only [popLoop, popUUID_append id _ h, popNamedTupleCodecD,
      popUint16_u16be, popNamedFieldsD, popString,
      popBytes_pushBytes nm _ hnm, hnone, Nat.mod_eq_of_lt hk16]
  · intro fuel lookup codecs id k rest h hk hk16
    have hnone : codecs[k]? = none := List.getElem?_eq_none hk
    simp only [popLoop, popUUID_append id _ h, popArrayCodecD,
      popUint16_u16be, popDimsD, hnone, Nat.mod_eq_of_lt hk16]

/-- C8 witness: at the initial state (no codecs parsed yet), each of the
five composite descriptors referencing index 0 — its own position — is
rejected with `badIndex 0`. -/
theorem C8_witness :
    popLoop 1 [] []
        (0 :: ([0, 0, 0, 0, 0, 0, 0, 0, 0, 0, 0, 0, 0, 0, 0, 0] ++
          (u16be 0 ++ []))) = .error (.badIndex 0) ∧
    popLoop 1 [] []
        (1 :: ([0, 0, 0, 0, 0, 0, 0, 0, 0, 0, 0, 0, 0, 0, 0, 0] ++
          (u16be 1 ++ (u8be 0 ++ (pushBytes [] [97] ++ (u16be 0 ++ [])))))) =
      .error (.badIndex 0) ∧
    popLoop 1 [] []
        (4 :: ([0, 0, 0, 0, 0, 0, 0, 0, 0, 0, 0, 0, 0, 0, 0, 0] ++
          (u16be 1 ++ (u16be 0 ++ [])))) = .error (.badIndex 0) ∧
    popLoop 1 [] []
        (5 :: ([0, 0, 0, 0, 0, 0, 0, 0, 0, 0, 0, 0, 0, 0, 0, 0] ++
          (u16be 1 ++ (pushBytes [] [97] ++ (u16be 0 ++ []))))) =
      .error (.badIndex 0) ∧
    popLoop 1 [] []
        (6 :: ([0, 0, 0, 0, 0, 0, 0, 0, 0, 0, 0, 0, 0, 0, 0, 0] ++
          (u16be 0 ++ (u16be 0 ++ [])))) = .error (.badIndex 0) := by
  obtain ⟨h0, h1, h4, h5, h6⟩ := C8_forward_reference
  exact ⟨h0 0 [] [] _ 0 [] (by decide) (by decide) (by decide),
    h1 0 [] [] _ 0 [97] 0 [] (by decide) (by decide) (by decide) (by decide),
    h4 0 [] [] _ 0 [] (by decide) (by decide) (by decide),
    h5 0 [] [] _ [97] 0 [] (by decide) (by decide) (by decide) (by decide),
    h6 0 [] [] _ 0 [] (by decide) (by decide) (by decide)⟩

end EdgedbCodecs
